import Mathlib

/-!
# Verification of the PR review bot orchestration pipeline

A shallow embedding of `pr_review_bot.py`.  The two external collaborators
(the git subprocess and the HTTP model-inference endpoint) are modelled as
response functions in an `Env`; the bot's configuration together with the
trace of collaborator calls is threaded as explicit state `St`, mirroring the
Python object `self` plus the observable calls it makes.

The Python text primitives used by the source (`textwrap.dedent`,
`str.strip`, `str.splitlines`, `str.split('\n')`) are modelled on character
lists, following the CPython implementations restricted to ASCII whitespace
(the inputs the program handles are ASCII command output and prompts).
-/

namespace PRReview

/-- Blank characters considered by `textwrap.dedent` (the regexes use
`[ \t]`). -/
def isPyBlank (c : Char) : Bool := c == ' ' || c == '\t'

/-- ASCII whitespace stripped by Python `str.strip()`. -/
def isPySpace (c : Char) : Bool :=
  c == ' ' || c == '\t' || c == '\n' || c == '\r' || c == '\x0b' || c == '\x0c'

/-- Python `text.split('\n')` on character lists (always at least one
piece). -/
def splitNL : List Char → List (List Char)
  | [] => [[]]
  | c :: rest =>
    if c = '\n' then [] :: splitNL rest
    else match splitNL rest with
      | [] => [[c]]
      | l :: ls => (c :: l) :: ls

/-- Joining lines back with newlines, inverse of `splitNL` on
newline-free lines. -/
def joinNL : List (List Char) → List Char
  | [] => []
  | [l] => l
  | l :: l' :: ls => l ++ '\n' :: joinNL (l' :: ls)

/-- Python `str.splitlines()` on character lists, for the line boundaries
that occur in git output (`\n`, `\r\n`, `\r`): no trailing empty piece, and
the empty string yields no lines. -/
def splitlinesChars : List Char → List (List Char)
  | [] => []
  | '\r' :: '\n' :: rest => [] :: splitlinesChars rest
  | '\n' :: rest => [] :: splitlinesChars rest
  | '\r' :: rest => [] :: splitlinesChars rest
  | c :: rest =>
    match splitlinesChars rest with
    | [] => [[c]]
    | l :: ls => (c :: l) :: ls

/-- Python `str.strip()` on character lists. -/
def stripChars (cs : List Char) : List Char :=
  ((cs.dropWhile isPySpace).reverse.dropWhile isPySpace).reverse

/-- Python `str.strip()`. -/
def pyStrip (s : String) : String := ⟨stripChars s.data⟩

/-- Python `str.splitlines()`. -/
def pySplitlines (s : String) : List String :=
  (splitlinesChars s.data).map String.mk

/-- A line consisting solely of whitespace, nonempty: the lines matched by
`textwrap.dedent`'s `_whitespace_only_re` (`^[ \t]+$`). -/
def isWsOnlyLine (l : List Char) : Bool := !l.isEmpty && l.all isPyBlank

/-- Leading whitespace of a line, as captured by `dedent`'s
`_leading_whitespace_re` (`(^[ \t]*)(?:[^ \t\n])`). -/
def lineIndent (l : List Char) : List Char := l.takeWhile isPyBlank

/-- Longest common prefix of two character lists: the net effect of the
margin update cases in `textwrap.dedent`'s loop over indents. -/
def commonPrefix : List Char → List Char → List Char
  | a :: as, b :: bs => if a == b then a :: commonPrefix as bs else []
  | _, _ => []

/-- The margin `textwrap.dedent` computes from the leading whitespace of
the non-empty lines: the common prefix of all of them (empty when there are
none). -/
def dedentMargin (indents : List (List Char)) : List Char :=
  match indents with
  | [] => []
  | i :: is => is.foldl commonPrefix i

/-- `textwrap.dedent` on character lists: whitespace-only lines are
normalised to empty, the margin is the common leading whitespace of the
remaining lines, and the margin is removed from every line starting with
it. -/
def dedentChars (cs : List Char) : List Char :=
  let ls := (splitNL cs).map fun l => if isWsOnlyLine l then [] else l
  let m := dedentMargin ((ls.filter fun l => !l.isEmpty).map lineIndent)
  joinNL (ls.map fun l => if m.isPrefixOf l then l.drop m.length else l)

/-- `textwrap.dedent`. -/
def pyDedent (s : String) : String := ⟨dedentChars s.data⟩

/-- Python substring test (`needle in hay`) on character lists. -/
def hasInfixChars (needle : List Char) : List Char → Bool
  | [] => needle.isEmpty
  | c :: rest => needle.isPrefixOf (c :: rest) || hasInfixChars needle rest

/-- `needle` occurs as a contiguous substring of `hay`. -/
def strContains (hay needle : String) : Bool := hasInfixChars needle.data hay.data

/-! ## Data model -/

/-- Container for a review of a single file (`FileReview` dataclass). -/
structure FileReview where
  path : String
  comments : String
deriving Repr, DecidableEq

/-- A failed git subprocess: `subprocess.CalledProcessError` carrying the
exit status and captured stderr (the spec's `VcsError` payload). -/
structure GitFailure where
  returncode : Int
  stderr : String
deriving Repr, DecidableEq

/-- The error taxonomy of the spec: `VcsError` for version-control
collaborator failures, `InferenceError` for model-inference failures. -/
inductive BotError where
  | vcsError (f : GitFailure)
  | inferenceError (msg : String)
deriving Repr, DecidableEq

/-- The payload `requests.post` sends in `_call_model`: endpoint URL and the
JSON body `{model, prompt, stream}` plus the timeout. -/
structure ModelRequest where
  url : String
  model : String
  prompt : String
  stream : Bool
  timeout : Nat
deriving Repr, DecidableEq

/-- Outcome of the HTTP round trip: a network/timeout failure, or a
response with a status code and a body.  The parsed JSON body is abstracted
to its optional `response` field: `none` means the body is not valid JSON,
`some r` means it parsed with `r` the optional generated-text field. -/
inductive HttpOutcome where
  | netFail (msg : String)
  | response (status : Nat) (body : Option (Option String))
deriving Repr, DecidableEq

/-- The two external collaborators: `git cwd args` is the stdout of
`git *args` run in `cwd` (or the failure), `http req` the outcome of posting
`req`. -/
structure Env where
  git : String → List String → Except GitFailure String
  http : ModelRequest → HttpOutcome

/-- The bot's configuration fields, set in `__init__`. -/
structure Bot where
  repo_path : String
  model : String
  endpoint : String
deriving Repr, DecidableEq

/-- Program state: the bot object plus the observable trace of collaborator
calls made so far (git argument vectors and model requests, in order). -/
structure St where
  bot : Bot
  gitCalls : List (List String)
  modelCalls : List ModelRequest
deriving Repr, DecidableEq

/-- The effect monad of the bot: state threading with abort-on-exception,
keeping the state (trace) accumulated up to the failure point. -/
def M (α : Type) := St → Except BotError α × St

instance : Monad M where
  pure a := fun st => (Except.ok a, st)
  bind m f := fun st =>
    match m st with
    | (Except.ok a, st') => f a st'
    | (Except.error e, st') => (Except.error e, st')

/-! ## The orchestrator (`PRReviewBot`) -/

/-- `_run_git`: run a git command inside `repo_path` and return stdout;
a nonzero exit raises (`check=True`). -/
def _run_git (env : Env) (args : List String) : M String := fun st =>
  let st' := { st with gitCalls := st.gitCalls ++ [args] }
  match env.git st.bot.repo_path args with
  | Except.ok out => (Except.ok out, st')
  | Except.error f => (Except.error (BotError.vcsError f), st')

/-- The list comprehension in `_changed_files`:
`[line.strip() for line in out.splitlines() if line.strip()]`. -/
def parseChangedOutput (out : String) : List String :=
  ((pySplitlines out).map pyStrip).filter fun l => l != ""

/-- `_changed_files(source, target)`. -/
def _changed_files (env : Env) (source target : String) : M (List String) := do
  let out ← _run_git env ["diff", "--name-only", target ++ ".." ++ source]
  pure (parseChangedOutput out)

/-- `_file_diff(source, target, path)`. -/
def _file_diff (env : Env) (source target path : String) : M String :=
  _run_git env ["diff", target ++ ".." ++ source, "--", path]

/-- `_file_content(branch, path)`. -/
def _file_content (env : Env) (branch path : String) : M String :=
  _run_git env ["show", branch ++ ":" ++ path]

/-- The request `_call_model` posts: `json={"model": self.model,
"prompt": prompt, "stream": False}, timeout=300` to `self.endpoint`. -/
def mkModelRequest (bot : Bot) (prompt : String) : ModelRequest :=
  { url := bot.endpoint, model := bot.model, prompt := prompt
    stream := false, timeout := 300 }

/-- `_call_model`: post the prompt; `raise_for_status()` raises on a 4xx/5xx
status, `response.json()` raises on an unparseable body, and
`data.get("response", "")` returns the generated text or `""`. -/
def _call_model (env : Env) (prompt : String) : M String := fun st =>
  let req := mkModelRequest st.bot prompt
  let st' := { st with modelCalls := st.modelCalls ++ [req] }
  match env.http req with
  | HttpOutcome.netFail msg => (Except.error (BotError.inferenceError msg), st')
  | HttpOutcome.response status body =>
    if 400 ≤ status ∧ status < 600 then
      (Except.error (BotError.inferenceError ("HTTP error " ++ toString status)), st')
    else
      match body with
      | none => (Except.error (BotError.inferenceError "response body is not valid JSON"), st')
      | some r => (Except.ok (r.getD ""), st')

/-- The f-string inside `_analyze`, transcribed with its exact text:
each source line of the triple-quoted literal carries twelve leading
spaces, the blank lines are empty, and the closing line is twelve
spaces. -/
def promptTemplate (file_path diff full_content source target : String) : String :=
  "\n" ++
  "            You are an expert software engineer assisting with pull request reviews." ++ "\n" ++
  "            Compare two branches: " ++ target ++ " (base) and " ++ source ++ " (feature)." ++ "\n" ++
  "            A developer has changed the file `" ++ file_path ++ "`. You are given the full" ++ "\n" ++
  "            content of the file from the feature branch along with the diff patch" ++ "\n" ++
  "            between the base and feature branch. Consider the entire file but limit" ++ "\n" ++
  "            your comments strictly to lines that are part of the diff. Highlight" ++ "\n" ++
  "            potential bugs, wrong logic, bad coding practices, and opportunities for" ++ "\n" ++
  "            improvement. Be concise and reference line numbers from the patch when" ++ "\n" ++
  "            possible." ++ "\n" ++
  "" ++ "\n" ++
  "            <file_content>" ++ "\n" ++
  "            " ++ full_content ++ "\n" ++
  "            </file_content>" ++ "\n" ++
  "" ++ "\n" ++
  "            <diff_patch>" ++ "\n" ++
  "            " ++ diff ++ "\n" ++
  "            </diff_patch>" ++ "\n" ++
  "" ++ "\n" ++
  "            Provide your review now." ++ "\n" ++
  "            "

/-- The prompt string `_analyze` builds:
`textwrap.dedent(f"""...""").strip()`. -/
def buildPrompt (file_path diff full_content source target : String) : String :=
  pyStrip (pyDedent (promptTemplate file_path diff full_content source target))

/-- `_analyze`: build the prompt and send it to the model. -/
def _analyze (env : Env) (file_path diff full_content source target : String) : M String :=
  _call_model env (buildPrompt file_path diff full_content source target)

/-- The body of the `for` loop in `review`, for one path. -/
def processFile (env : Env) (source target path : String) : M FileReview := do
  let diff ← _file_diff env source target path
  let content ← _file_content env source path
  let comments ← _analyze env path diff content source target
  pure { path := path, comments := comments }

/-- The `for` loop in `review`: `reviews.append(FileReview(...))` per
path, in order. -/
def reviewLoop (env : Env) (source target : String) :
    List String → List FileReview → M (List FileReview)
  | [], acc => pure acc
  | path :: rest, acc => do
    let r ← processFile env source target path
    reviewLoop env source target rest (acc ++ [r])

/-- `review(source, target)`. -/
def review (env : Env) (source target : String) : M (List FileReview) := do
  let files ← _changed_files env source target
  reviewLoop env source target files []

/-- A fresh bot object right after `__init__`: no calls made yet. -/
def initSt (bot : Bot) : St := { bot := bot, gitCalls := [], modelCalls := [] }

/-- Run `review` on a fresh bot. -/
def runReview (bot : Bot) (env : Env) (source target : String) :
    Except BotError (List FileReview) × St :=
  review env source target (initSt bot)

/-! ## Basic facts about the effect monad -/

theorem pure_apply {α : Type} (a : α) (st : St) :
    (pure a : M α) st = (Except.ok a, st) := rfl

theorem bind_apply {α β : Type} (m : M α) (f : α → M β) (st : St) :
    (m >>= f) st = match m st with
      | (Except.ok a, st') => f a st'
      | (Except.error e, st') => (Except.error e, st') := rfl

theorem bind_ok {α β : Type} {m : M α} {f : α → M β} {st st₁ : St} {a : α}
    (h : m st = (Except.ok a, st₁)) : (m >>= f) st = f a st₁ := by
  rw [bind_apply, h]

theorem bind_err {α β : Type} {m : M α} {f : α → M β} {st st₁ : St} {e : BotError}
    (h : m st = (Except.error e, st₁)) : (m >>= f) st = (Except.error e, st₁) := by
  rw [bind_apply, h]

theorem run_git_apply (env : Env) (args : List String) (st : St) :
    (_run_git env args) st =
      ((match env.git st.bot.repo_path args with
        | Except.ok out => Except.ok out
        | Except.error f => Except.error (BotError.vcsError f)),
        { st with gitCalls := st.gitCalls ++ [args] }) := by
  rcases h : env.git st.bot.repo_path args with f | out <;> simp [_run_git, h]

theorem changed_files_apply (env : Env) (s t : String) (st : St) :
    (_changed_files env s t) st =
      ((match env.git st.bot.repo_path ["diff", "--name-only", t ++ ".." ++ s] with
        | Except.ok out => Except.ok (parseChangedOutput out)
        | Except.error f => Except.error (BotError.vcsError f)),
        { st with gitCalls := st.gitCalls ++ [["diff", "--name-only", t ++ ".." ++ s]] }) := by
  rw [_changed_files, bind_apply, run_git_apply]
  rcases h : env.git st.bot.repo_path ["diff", "--name-only", t ++ ".." ++ s] with f | out <;>
    simp [pure_apply]

theorem review_apply (env : Env) (s t : String) (st : St) :
    (review env s t) st = match (_changed_files env s t) st with
      | (Except.ok files, st₁) => (reviewLoop env s t files []) st₁
      | (Except.error e, st₁) => (Except.error e, st₁) := by
  rw [review, bind_apply]
  rcases h : (_changed_files env s t) st with ⟨r, st₁⟩
  cases r <;> rfl

theorem call_model_apply (env : Env) (prompt : String) (st : St) :
    (_call_model env prompt) st =
      ((match env.http (mkModelRequest st.bot prompt) with
        | HttpOutcome.netFail msg => Except.error (BotError.inferenceError msg)
        | HttpOutcome.response status body =>
          if 400 ≤ status ∧ status < 600 then
            Except.error (BotError.inferenceError ("HTTP error " ++ toString status))
          else
            match body with
            | none => Except.error (BotError.inferenceError "response body is not valid JSON")
            | some r => Except.ok (r.getD "")),
        { st with modelCalls := st.modelCalls ++ [mkModelRequest st.bot prompt] }) := by
  rcases h : env.http (mkModelRequest st.bot prompt) with msg | ⟨status, body⟩
  · simp [_call_model, h]
  · by_cases hs : 400 ≤ status ∧ status < 600
    · simp [_call_model, h, hs]
    · rcases body with _ | r <;> simp [_call_model, h, hs]

/-- If the per-file processing succeeds, the produced `FileReview` carries
exactly the path that was processed. -/
theorem processFile_ok_path {env : Env} {s t path : String} {st st' : St} {r : FileReview}
    (h : (processFile env s t path) st = (Except.ok r, st')) : r.path = path := by
  rw [processFile] at h
  rcases h₁ : (_file_diff env s t path) st with ⟨r₁, st₁⟩
  cases r₁ with
  | error e => rw [bind_err h₁] at h; simp at h
  | ok d =>
    rw [bind_ok h₁] at h
    rcases h₂ : (_file_content env s path) st₁ with ⟨r₂, st₂⟩
    cases r₂ with
    | error e => rw [bind_err h₂] at h; simp at h
    | ok content =>
      rw [bind_ok h₂] at h
      rcases h₃ : (_analyze env path d content s t) st₂ with ⟨r₃, st₃⟩
      cases r₃ with
      | error e => rw [bind_err h₃] at h; simp at h
      | ok comments =>
        rw [bind_ok h₃, pure_apply] at h
        cases h
        rfl

/-- If every model call answers with status 200 and generated text `S`,
a successful per-file processing yields comments exactly `S`. -/
theorem processFile_ok_comments {env : Env} {S : String} {s t path : String}
    {st st' : St} {r : FileReview}
    (hS : ∀ req, env.http req = HttpOutcome.response 200 (some (some S)))
    (h : (processFile env s t path) st = (Except.ok r, st')) : r.comments = S := by
  rw [processFile] at h
  rcases h₁ : (_file_diff env s t path) st with ⟨r₁, st₁⟩
  cases r₁ with
  | error e => rw [bind_err h₁] at h; simp at h
  | ok d =>
    rw [bind_ok h₁] at h
    rcases h₂ : (_file_content env s path) st₁ with ⟨r₂, st₂⟩
    cases r₂ with
    | error e => rw [bind_err h₂] at h; simp at h
    | ok content =>
      rw [bind_ok h₂] at h
      have h₃ : (_analyze env path d content s t) st₂ =
          (Except.ok S, { st₂ with modelCalls := st₂.modelCalls ++
            [mkModelRequest st₂.bot (buildPrompt path d content s t)] }) := by
        rw [_analyze, call_model_apply, hS]
        norm_num
      rw [bind_ok h₃, pure_apply] at h
      cases h
      rfl

/-- Unrolling the loop over a list split: the loop processes `xs` first and
continues with `ys` only if no exception occurred. -/
theorem reviewLoop_append (env : Env) (s t : String) (xs ys : List String)
    (acc : List FileReview) (st : St) :
    (reviewLoop env s t (xs ++ ys) acc) st =
      match (reviewLoop env s t xs acc) st with
      | (Except.ok acc', st') => (reviewLoop env s t ys acc') st'
      | (Except.error e, st') => (Except.error e, st') := by
  induction xs generalizing acc st with
  | nil => simp [reviewLoop, pure_apply]
  | cons x xs ih =>
    rw [List.cons_append, reviewLoop, reviewLoop]
    rcases h : (processFile env s t x) st with ⟨r, st₁⟩
    cases r with
    | error e => rw [bind_err h, bind_err h]
    | ok fr => rw [bind_ok h, bind_ok h]; exact ih (acc ++ [fr]) st₁

/-- The accumulator only prepends to the loop's output; the trace and
outcome do not depend on it. -/
theorem reviewLoop_shift (env : Env) (s t : String) (xs : List String)
    (acc : List FileReview) (st : St) :
    (reviewLoop env s t xs acc) st =
      match (reviewLoop env s t xs []) st with
      | (Except.ok res, st') => (Except.ok (acc ++ res), st')
      | (Except.error e, st') => (Except.error e, st') := by
  induction xs generalizing acc st with
  | nil => simp [reviewLoop, pure_apply]
  | cons x xs ih =>
    rw [reviewLoop, reviewLoop]
    rcases h : (processFile env s t x) st with ⟨r, st₁⟩
    cases r with
    | error e => rw [bind_err h, bind_err h]
    | ok fr =>
      rw [bind_ok h, bind_ok h, List.nil_append, ih (acc ++ [fr]) st₁, ih [fr] st₁]
      rcases h₂ : (reviewLoop env s t xs []) st₁ with ⟨r₂, st₂⟩
      cases r₂ <;> simp

/-- On success, the loop returns one `FileReview` per processed path, with
the path sequence extending the accumulator's by the processed list, in
order. -/
theorem reviewLoop_ok_paths {env : Env} {s t : String} {files : List String}
    {acc revs : List FileReview} {st st' : St}
    (h : (reviewLoop env s t files acc) st = (Except.ok revs, st')) :
    revs.map FileReview.path = acc.map FileReview.path ++ files := by
  induction files generalizing acc st with
  | nil =>
    rw [reviewLoop, pure_apply] at h
    cases h
    simp
  | cons x xs ih =>
    rw [reviewLoop] at h
    rcases h₁ : (processFile env s t x) st with ⟨r, st₁⟩
    cases r with
    | error e => rw [bind_err h₁] at h; simp at h
    | ok fr =>
      rw [bind_ok h₁] at h
      have := ih h
      simpa [processFile_ok_path h₁] using this

/-- On success under a constant model stub, every produced review's
comments equal the stub string. -/
theorem reviewLoop_ok_comments {env : Env} {S : String} {s t : String}
    {files : List String} {acc revs : List FileReview} {st st' : St}
    (hS : ∀ req, env.http req = HttpOutcome.response 200 (some (some S)))
    (hacc : ∀ r ∈ acc, r.comments = S)
    (h : (reviewLoop env s t files acc) st = (Except.ok revs, st')) :
    ∀ r ∈ revs, r.comments = S := by
  induction files generalizing acc st with
  | nil =>
    rw [reviewLoop, pure_apply] at h
    cases h
    exact hacc
  | cons x xs ih =>
    rw [reviewLoop] at h
    rcases h₁ : (processFile env s t x) st with ⟨r, st₁⟩
    cases r with
    | error e => rw [bind_err h₁] at h; simp at h
    | ok fr =>
      rw [bind_ok h₁] at h
      refine ih ?_ h
      intro r hr
      rcases List.mem_append.mp hr with hr | hr
      · exact hacc r hr
      · rw [List.mem_singleton.mp hr]
        exact processFile_ok_comments hS h₁

/-! ## Preservation of the bot's configuration -/

theorem pure_bot {α : Type} (a : α) (st : St) : ((pure a : M α) st).2.bot = st.bot := rfl

theorem run_git_bot (env : Env) (args : List String) (st : St) :
    ((_run_git env args) st).2.bot = st.bot := by
  rw [run_git_apply]

theorem call_model_bot (env : Env) (prompt : String) (st : St) :
    ((_call_model env prompt) st).2.bot = st.bot := by
  rw [call_model_apply]

theorem bind_bot {α β : Type} {m : M α} {f : α → M β}
    (hm : ∀ st, ((m st).2).bot = st.bot) (hf : ∀ a st, (((f a) st).2).bot = st.bot)
    (st : St) : (((m >>= f) st).2).bot = st.bot := by
  rcases h : m st with ⟨r, st₁⟩
  have hst₁ : st₁.bot = st.bot := by have := hm st; rw [h] at this; exact this
  cases r with
  | error e => rw [bind_err h]; exact hst₁
  | ok a => rw [bind_ok h, hf a st₁]; exact hst₁

theorem changed_files_bot (env : Env) (s t : String) (st : St) :
    ((_changed_files env s t) st).2.bot = st.bot := by
  rw [changed_files_apply]

theorem file_diff_bot (env : Env) (s t path : String) (st : St) :
    ((_file_diff env s t path) st).2.bot = st.bot := run_git_bot env _ st

theorem file_content_bot (env : Env) (branch path : String) (st : St) :
    ((_file_content env branch path) st).2.bot = st.bot := run_git_bot env _ st

theorem analyze_bot (env : Env) (fp d c s t : String) (st : St) :
    ((_analyze env fp d c s t) st).2.bot = st.bot := call_model_bot env _ st

theorem processFile_bot (env : Env) (s t path : String) (st : St) :
    ((processFile env s t path) st).2.bot = st.bot := by
  rw [processFile]
  refine bind_bot (file_diff_bot env s t path) (fun d => ?_) st
  refine bind_bot (file_content_bot env s path) (fun c => ?_)
  exact bind_bot (analyze_bot env path d c s t) (fun comments => pure_bot _)

theorem reviewLoop_bot (env : Env) (s t : String) (files : List String)
    (acc : List FileReview) (st : St) :
    ((reviewLoop env s t files acc) st).2.bot = st.bot := by
  induction files generalizing acc st with
  | nil => rw [reviewLoop]; exact pure_bot acc st
  | cons x xs ih =>
    rw [reviewLoop]
    exact bind_bot (processFile_bot env s t x) (fun r => ih (acc ++ [r])) st

theorem review_bot (env : Env) (s t : String) (st : St) :
    ((review env s t) st).2.bot = st.bot := by
  rw [review]
  exact bind_bot (changed_files_bot env s t) (fun files => reviewLoop_bot env s t files []) st

/-! ## Conditional evaluation lemmas -/

theorem initSt_bot (bot : Bot) : (initSt bot).bot = bot := rfl

theorem run_git_ok (env : Env) (args : List String) (st : St) (out : String)
    (h : env.git st.bot.repo_path args = Except.ok out) :
    (_run_git env args) st = (Except.ok out, { st with gitCalls := st.gitCalls ++ [args] }) := by
  rw [run_git_apply, h]

theorem run_git_err (env : Env) (args : List String) (st : St) (f : GitFailure)
    (h : env.git st.bot.repo_path args = Except.error f) :
    (_run_git env args) st =
      (Except.error (BotError.vcsError f), { st with gitCalls := st.gitCalls ++ [args] }) := by
  rw [run_git_apply, h]

theorem changed_files_ok (env : Env) (s t : String) (st : St) (out : String)
    (h : env.git st.bot.repo_path ["diff", "--name-only", t ++ ".." ++ s] = Except.ok out) :
    (_changed_files env s t) st =
      (Except.ok (parseChangedOutput out),
        { st with gitCalls := st.gitCalls ++ [["diff", "--name-only", t ++ ".." ++ s]] }) := by
  rw [changed_files_apply, h]

theorem changed_files_err (env : Env) (s t : String) (st : St) (f : GitFailure)
    (h : env.git st.bot.repo_path ["diff", "--name-only", t ++ ".." ++ s] = Except.error f) :
    (_changed_files env s t) st =
      (Except.error (BotError.vcsError f),
        { st with gitCalls := st.gitCalls ++ [["diff", "--name-only", t ++ ".." ++ s]] }) := by
  rw [changed_files_apply, h]

theorem reviewLoop_append_ok {env : Env} {s t : String} {xs : List String}
    {acc acc' : List FileReview} {st st' : St} (ys : List String)
    (h : (reviewLoop env s t xs acc) st = (Except.ok acc', st')) :
    (reviewLoop env s t (xs ++ ys) acc) st = (reviewLoop env s t ys acc') st' := by
  rw [reviewLoop_append, h]

/-- Per-file processing when the diff fetch succeeds but the content fetch
fails: the `CalledProcessError` from `git show` propagates out of the file's
processing, after exactly the two git calls and before any model call. -/
theorem processFile_content_failure (env : Env) (s t path : String) (st : St)
    (d : String) (g : GitFailure)
    (hdiff : env.git st.bot.repo_path ["diff", t ++ ".." ++ s, "--", path] = Except.ok d)
    (hshow : env.git st.bot.repo_path ["show", s ++ ":" ++ path] = Except.error g) :
    (processFile env s t path) st =
      (Except.error (BotError.vcsError g),
        { st with gitCalls :=
            st.gitCalls ++ [["diff", t ++ ".." ++ s, "--", path], ["show", s ++ ":" ++ path]] }) := by
  have h₁ := run_git_ok env ["diff", t ++ ".." ++ s, "--", path] st d hdiff
  rw [processFile, _file_diff, bind_ok h₁]
  have h₂ := run_git_err env ["show", s ++ ":" ++ path]
    { st with gitCalls := st.gitCalls ++ [["diff", t ++ ".." ++ s, "--", path]] } g hshow
  rw [_file_content, bind_err h₂]
  simp

/-! ## Witness material: concrete bots and collaborator environments -/

/-- A concrete bot configuration (the constructor defaults, with a repo
path). -/
def botW : Bot :=
  { repo_path := "/repo", model := "llama3", endpoint := "http://localhost:11434/api/generate" }

/-- Collaborators for which everything succeeds: two changed files, content
and diff for each, a model stub always answering "stub response". -/
def envOk : Env :=
  { git := fun _ args =>
      if args = ["diff", "--name-only", "main..feature"] then Except.ok "a.py\nb.py\n"
      else if args.headD "" = "show" then Except.ok "x = 1"
      else Except.ok "+x"
    http := fun _ => HttpOutcome.response 200 (some (some "stub response")) }

/-! ## The claims -/

/-- C1: for every list of changed file paths returned by the
version-control collaborator, a successful `review(source, target)` returns
exactly one `FileReview` per path, whose path sequence equals the
changed-files sequence (the parsed listing output), in the same order, with
nothing added or removed. -/
theorem review_paths_match_changeset (bot : Bot) (env : Env) (s t : String)
    (revs : List FileReview) (st' : St)
    (h : runReview bot env s t = (Except.ok revs, st')) :
    ∃ out, env.git bot.repo_path ["diff", "--name-only", t ++ ".." ++ s] = Except.ok out ∧
      revs.map FileReview.path = parseChangedOutput out := by
  rcases hg : env.git bot.repo_path ["diff", "--name-only", t ++ ".." ++ s] with f | out
  · have hcf := changed_files_err env s t (initSt bot) f hg
    rw [runReview, review, bind_err hcf] at h
    simp at h
  · have hcf := changed_files_ok env s t (initSt bot) out hg
    rw [runReview, review, bind_ok hcf] at h
    exact ⟨out, rfl, by simpa using reviewLoop_ok_paths h⟩

set_option maxRecDepth 100000

/-- Witness for C1 at a concrete repository with two changed files. -/
theorem review_paths_match_changeset_witness :
    ∃ out, envOk.git botW.repo_path ["diff", "--name-only", "main..feature"] = Except.ok out ∧
      [FileReview.mk "a.py" "stub response",
        FileReview.mk "b.py" "stub response"].map FileReview.path = parseChangedOutput out :=
  review_paths_match_changeset botW envOk "feature" "main"
    [FileReview.mk "a.py" "stub response", FileReview.mk "b.py" "stub response"]
    (runReview botW envOk "feature" "main").2 rfl

/-- C4: if the version-control collaborator fails (for any reason) during
the initial listing of changed files, `review` raises the `VcsError` and
makes zero model-inference calls (the model-call trace stays empty). -/
theorem review_listing_failure (bot : Bot) (env : Env) (s t : String) (f : GitFailure)
    (hg : env.git bot.repo_path ["diff", "--name-only", t ++ ".." ++ s] = Except.error f) :
    runReview bot env s t =
      (Except.error (BotError.vcsError f),
        { bot := bot, gitCalls := [["diff", "--name-only", t ++ ".." ++ s]],
          modelCalls := [] }) := by
  have hcf := changed_files_err env s t (initSt bot) f hg
  rw [runReview, review, bind_err hcf]
  rfl

/-- Collaborators whose git command always fails. -/
def envGitDown : Env :=
  { git := fun _ _ => Except.error { returncode := 128, stderr := "fatal: bad revision" }
    http := fun _ => HttpOutcome.response 200 (some (some "stub response")) }

/-- Witness for C4: a failing listing yields the `VcsError` and an empty
model-call trace. -/
theorem review_listing_failure_witness :
    runReview botW envGitDown "feature" "main" =
      (Except.error (BotError.vcsError { returncode := 128, stderr := "fatal: bad revision" }),
        { bot := botW, gitCalls := [["diff", "--name-only", "main..feature"]],
          modelCalls := [] }) :=
  review_listing_failure botW envGitDown "feature" "main"
    { returncode := 128, stderr := "fatal: bad revision" } rfl

/-- C5: if the collaborator reports no changed files (its listing output
parses to the empty list), `review` returns the empty sequence, makes zero
model-inference calls, and performs no per-file diff or content fetches
(the git-call trace holds exactly the one listing call). -/
theorem review_empty_changeset (bot : Bot) (env : Env) (s t : String) (out : String)
    (hg : env.git bot.repo_path ["diff", "--name-only", t ++ ".." ++ s] = Except.ok out)
    (hempty : parseChangedOutput out = []) :
    runReview bot env s t =
      (Except.ok [],
        { bot := bot, gitCalls := [["diff", "--name-only", t ++ ".." ++ s]],
          modelCalls := [] }) := by
  have hcf := changed_files_ok env s t (initSt bot) out hg
  rw [runReview, review, bind_ok hcf, hempty, reviewLoop, pure_apply]
  rfl

/-- Collaborators for which no files differ: the listing output is only
blank lines. -/
def envNoChanges : Env :=
  { git := fun _ _ => Except.ok " \n\n"
    http := fun _ => HttpOutcome.response 200 (some (some "stub response")) }

/-- Witness for C5: a blank listing yields the empty review sequence with
no further collaborator calls. -/
theorem review_empty_changeset_witness :
    runReview botW envNoChanges "feature" "main" =
      (Except.ok [],
        { bot := botW, gitCalls := [["diff", "--name-only", "main..feature"]],
          modelCalls := [] }) :=
  review_empty_changeset botW envNoChanges "feature" "main" " \n\n" rfl rfl

/-- C6: if the model-inference collaborator returns the fixed string `S`
for every call, every `FileReview` in a successful result carries comments
exactly `S`, independent of the diffs and contents: the model output is
passed through unmodified. -/
theorem review_model_passthrough (bot : Bot) (env : Env) (s t S : String)
    (revs : List FileReview) (st' : St)
    (hS : ∀ req, env.http req = HttpOutcome.response 200 (some (some S)))
    (h : runReview bot env s t = (Except.ok revs, st')) :
    ∀ r ∈ revs, r.comments = S := by
  rw [runReview, review] at h
  rcases hcf : (_changed_files env s t) (initSt bot) with ⟨rc, st₁⟩
  cases rc with
  | error e => rw [bind_err hcf] at h; simp at h
  | ok files =>
    rw [bind_ok hcf] at h
    exact reviewLoop_ok_comments hS (by simp) h

/-- Witness for C6 with the constant stub "stub response", at the first
review of the successful run. -/
theorem review_model_passthrough_witness :
    (FileReview.mk "a.py" "stub response").comments = "stub response" :=
  review_model_passthrough botW envOk "feature" "main" "stub response"
    [FileReview.mk "a.py" "stub response", FileReview.mk "b.py" "stub response"]
    (runReview botW envOk "feature" "main").2 (fun _ => rfl) rfl
    (FileReview.mk "a.py" "stub response") (List.mem_cons_self _ _)

/-- C9: `review` is deterministic in the collaborator responses: two
environments answering identically on every git invocation and every model
request produce identical outcomes and traces from the same start state. -/
theorem review_deterministic (env₁ env₂ : Env) (s t : String) (st : St)
    (hg : ∀ cwd args, env₁.git cwd args = env₂.git cwd args)
    (hh : ∀ req, env₁.http req = env₂.http req) :
    (review env₁ s t) st = (review env₂ s t) st := by
  have henv : env₁ = env₂ := by
    cases env₁
    cases env₂
    congr 1
    · funext cwd args
      exact hg cwd args
    · funext req
      exact hh req
  rw [henv]

/-- A syntactically different presentation of `envOk`'s responses. -/
def envOk' : Env :=
  { git := fun _ args =>
      if args = ["diff", "--name-only", "main..feature"] then Except.ok ("a.py\nb.py" ++ "\n")
      else if args.headD "" = "show" then Except.ok ("x = " ++ "1")
      else Except.ok ("+" ++ "x")
    http := fun _ => HttpOutcome.response 200 (some (some ("stub " ++ "response"))) }

/-- Witness for C9: two environments with equal responses give equal
outcomes. -/
theorem review_deterministic_witness :
    (review envOk "feature" "main") (initSt botW) =
      (review envOk' "feature" "main") (initSt botW) :=
  review_deterministic envOk envOk' "feature" "main" (initSt botW)
    (fun cwd args => by
      simp only [envOk, envOk']
      split
      · rfl
      · split <;> rfl)
    (fun req => rfl)

/-- C10: no operation of the orchestrator mutates the bot's configuration:
after `review` and after each of its internal steps, the `repo_path`,
`model` and `endpoint` fields (the whole `bot` record) are unchanged. -/
theorem review_preserves_config (env : Env) (s t : String) (st : St) :
    ((review env s t) st).2.bot = st.bot ∧
    ((_changed_files env s t) st).2.bot = st.bot ∧
    (∀ args, ((_run_git env args) st).2.bot = st.bot) ∧
    (∀ s' t' path, ((_file_diff env s' t' path) st).2.bot = st.bot) ∧
    (∀ branch path, ((_file_content env branch path) st).2.bot = st.bot) ∧
    (∀ prompt, ((_call_model env prompt) st).2.bot = st.bot) ∧
    (∀ path, ((processFile env s t path) st).2.bot = st.bot) :=
  ⟨review_bot env s t st, changed_files_bot env s t st,
    fun args => run_git_bot env args st,
    fun s' t' path => file_diff_bot env s' t' path st,
    fun branch path => file_content_bot env branch path st,
    fun prompt => call_model_bot env prompt st,
    fun path => processFile_bot env s t path st⟩

/-- C3: whatever `VcsError` or `InferenceError` is raised while processing
any single file — here, the first file whose processing fails, after a
prefix that succeeded — aborts the entire `review` call with exactly that
error: the result is the error, not a (partial) `FileReview` sequence. -/
theorem review_aborts_on_first_error (env : Env) (s t : String) (st₀ : St)
    (fs₁ : List String) (f : String) (fs₂ : List String) (acc : List FileReview) (e : BotError)
    (hlist : ((_changed_files env s t) st₀).1 = Except.ok (fs₁ ++ f :: fs₂))
    (hpre : ((reviewLoop env s t fs₁ []) ((_changed_files env s t) st₀).2).1 = Except.ok acc)
    (hfail : ((processFile env s t f)
      ((reviewLoop env s t fs₁ []) ((_changed_files env s t) st₀).2).2).1 = Except.error e) :
    ((review env s t) st₀).1 = Except.error e := by
  rcases hcf : (_changed_files env s t) st₀ with ⟨rc, st₁⟩
  rw [hcf] at hlist hpre hfail
  simp only [Prod.fst, Prod.snd] at hlist hpre hfail
  subst hlist
  rcases hl : (reviewLoop env s t fs₁ []) st₁ with ⟨rl, st₂⟩
  rw [hl] at hpre hfail
  simp only [Prod.fst, Prod.snd] at hpre hfail
  subst hpre
  rw [review, bind_ok hcf, reviewLoop_append_ok (f :: fs₂) hl, reviewLoop]
  rcases hp : (processFile env s t f) st₂ with ⟨rp, st₃⟩
  rw [hp] at hfail
  simp only [Prod.fst] at hfail
  subst hfail
  rw [bind_err hp]

/-- Collaborators with three changed files where fetching the content of
the second file fails. -/
def envFailSecond : Env :=
  { git := fun _ args =>
      if args = ["diff", "--name-only", "main..feature"] then Except.ok "a.py\nb.py\nc.py\n"
      else if args = ["show", "feature:b.py"] then
        Except.error { returncode := 128, stderr := "fatal: path does not exist" }
      else if args.headD "" = "show" then Except.ok "x = 1"
      else Except.ok "+x"
    http := fun _ => HttpOutcome.response 200 (some (some "stub response")) }

/-- Witness for C3: the content-fetch failure on the second of three files
aborts the whole call with that `VcsError`. -/
theorem review_aborts_on_first_error_witness :
    ((review envFailSecond "feature" "main") (initSt botW)).1 =
      Except.error (BotError.vcsError { returncode := 128, stderr := "fatal: path does not exist" }) :=
  review_aborts_on_first_error envFailSecond "feature" "main" (initSt botW)
    ["a.py"] "b.py" ["c.py"] [FileReview.mk "a.py" "stub response"]
    (BotError.vcsError { returncode := 128, stderr := "fatal: path does not exist" })
    rfl rfl rfl

/-- Collaborators with two changed files where fetching the content of the
first file fails (e.g. the file is absent at the source ref). -/
def envDeleted : Env :=
  { git := fun _ args =>
      if args = ["diff", "--name-only", "main..feature"] then Except.ok "a.py\nb.py\n"
      else if args = ["show", "feature:a.py"] then
        Except.error { returncode := 128, stderr := "fatal: path does not exist" }
      else if args.headD "" = "show" then Except.ok "x = 1"
      else Except.ok "+x"
    http := fun _ => HttpOutcome.response 200 (some (some "stub response")) }

/-- Counterexample to C2 as stated: when fetching the content of `a.py`
fails, `review` does not surface a per-file failure and does not continue
with the remaining file `b.py` — it aborts with the `VcsError`, having made
git calls only for the listing and for `a.py`, and no model calls at
all. -/
theorem review_content_failure_counterexample :
    ((review envDeleted "feature" "main") (initSt botW)).1 =
      Except.error (BotError.vcsError { returncode := 128, stderr := "fatal: path does not exist" }) ∧
    ((review envDeleted "feature" "main") (initSt botW)).2.gitCalls =
      [["diff", "--name-only", "main..feature"],
        ["diff", "main..feature", "--", "a.py"],
        ["show", "feature:a.py"]] ∧
    ((review envDeleted "feature" "main") (initSt botW)).2.modelCalls = [] :=
  ⟨rfl, rfl, rfl⟩

/-- C2 amended: a failure fetching a file's content at the source ref
propagates as a `VcsError` that aborts the entire `review` call after the
failing `git show`; the remaining files are not processed and no model
call is made for the failing file or any later one. -/
theorem review_content_fetch_failure_aborts (env : Env) (s t : String) (st₀ : St)
    (fs₁ : List String) (f : String) (fs₂ : List String) (acc : List FileReview)
    (d : String) (g : GitFailure)
    (hlist : ((_changed_files env s t) st₀).1 = Except.ok (fs₁ ++ f :: fs₂))
    (hpre : ((reviewLoop env s t fs₁ []) ((_changed_files env s t) st₀).2).1 = Except.ok acc)
    (hdiff : env.git st₀.bot.repo_path ["diff", t ++ ".." ++ s, "--", f] = Except.ok d)
    (hshow : env.git st₀.bot.repo_path ["show", s ++ ":" ++ f] = Except.error g) :
    ((review env s t) st₀).1 = Except.error (BotError.vcsError g) ∧
    ((review env s t) st₀).2.modelCalls =
      (((reviewLoop env s t fs₁ []) ((_changed_files env s t) st₀).2).2).modelCalls := by
  rcases hcf : (_changed_files env s t) st₀ with ⟨rc, st₁⟩
  rw [hcf] at hlist hpre
  simp only [Prod.fst, Prod.snd] at hlist hpre
  subst hlist
  rcases hl : (reviewLoop env s t fs₁ []) st₁ with ⟨rl, st₂⟩
  rw [hl] at hpre
  simp only [Prod.fst] at hpre
  subst hpre
  have hb : st₂.bot = st₀.bot := by
    have h1 : st₁.bot = st₀.bot := by
      have h := changed_files_bot env s t st₀
      rw [hcf] at h
      exact h
    have h2 : st₂.bot = st₁.bot := by
      have h := reviewLoop_bot env s t fs₁ [] st₁
      rw [hl] at h
      exact h
    rw [h2, h1]
  have hdiff' : env.git st₂.bot.repo_path ["diff", t ++ ".." ++ s, "--", f] = Except.ok d := by
    rw [hb]; exact hdiff
  have hshow' : env.git st₂.bot.repo_path ["show", s ++ ":" ++ f] = Except.error g := by
    rw [hb]; exact hshow
  have hp := processFile_content_failure env s t f st₂ d g hdiff' hshow'
  have hrev : (review env s t) st₀ =
      (Except.error (BotError.vcsError g),
        { st₂ with gitCalls :=
            st₂.gitCalls ++ [["diff", t ++ ".." ++ s, "--", f], ["show", s ++ ":" ++ f]] }) := by
    rw [review, bind_ok hcf, reviewLoop_append_ok (f :: fs₂) hl, reviewLoop, bind_err hp]
  constructor
  · rw [hrev]
  · simp [hrev, hcf, hl]

/-- Witness for the amended C2: the content-fetch failure on the first of
two files aborts the call with the `VcsError`, with no model call made. -/
theorem review_content_fetch_failure_aborts_witness :
    ((review envDeleted "feature" "main") (initSt botW)).1 =
      Except.error (BotError.vcsError { returncode := 128, stderr := "fatal: path does not exist" }) ∧
    ((review envDeleted "feature" "main") (initSt botW)).2.modelCalls =
      (((reviewLoop envDeleted "feature" "main" [] [])
        ((_changed_files envDeleted "feature" "main") (initSt botW)).2).2).modelCalls :=
  review_content_fetch_failure_aborts envDeleted "feature" "main" (initSt botW)
    [] "a.py" ["b.py"] [] "+x" { returncode := 128, stderr := "fatal: path does not exist" }
    rfl rfl rfl rfl

/-- C8: `_call_model` returns the generated-text field of the inference
response; when the field is absent from a parsed payload it returns the
empty string, not an error; and it fails with an `InferenceError` whenever
the network call fails, the response status is non-success (4xx/5xx), or
the response body is not parseable as JSON. -/
theorem call_model_contract (env : Env) (prompt : String) (st : St) :
    (∀ status txt, env.http (mkModelRequest st.bot prompt) =
        HttpOutcome.response status (some (some txt)) →
      ¬ (400 ≤ status ∧ status < 600) →
      ((_call_model env prompt) st).1 = Except.ok txt) ∧
    (∀ status, env.http (mkModelRequest st.bot prompt) =
        HttpOutcome.response status (some none) →
      ¬ (400 ≤ status ∧ status < 600) →
      ((_call_model env prompt) st).1 = Except.ok "") ∧
    (∀ msg, env.http (mkModelRequest st.bot prompt) = HttpOutcome.netFail msg →
      ∃ m, ((_call_model env prompt) st).1 = Except.error (BotError.inferenceError m)) ∧
    (∀ status body, env.http (mkModelRequest st.bot prompt) =
        HttpOutcome.response status body →
      400 ≤ status → status < 600 →
      ∃ m, ((_call_model env prompt) st).1 = Except.error (BotError.inferenceError m)) ∧
    (∀ status, env.http (mkModelRequest st.bot prompt) = HttpOutcome.response status none →
      ¬ (400 ≤ status ∧ status < 600) →
      ∃ m, ((_call_model env prompt) st).1 = Except.error (BotError.inferenceError m)) := by
  refine ⟨?_, ?_, ?_, ?_, ?_⟩
  · intro status txt h hs
    rw [call_model_apply, h]
    simp [hs]
  · intro status h hs
    rw [call_model_apply, h]
    simp [hs]
  · intro msg h
    rw [call_model_apply, h]
    exact ⟨msg, rfl⟩
  · intro status body h h4 h6
    rw [call_model_apply, h]
    exact ⟨"HTTP error " ++ toString status, by simp [h4, h6]⟩
  · intro status h hs
    rw [call_model_apply, h]
    exact ⟨"response body is not valid JSON", by simp [hs]⟩

/-- Environments exercising each `_call_model` outcome. -/
def envHttpText : Env :=
  { git := fun _ _ => Except.ok "", http := fun _ => HttpOutcome.response 200 (some (some "hi")) }

def envHttpNoField : Env :=
  { git := fun _ _ => Except.ok "", http := fun _ => HttpOutcome.response 200 (some none) }

def envHttpNetFail : Env :=
  { git := fun _ _ => Except.ok "", http := fun _ => HttpOutcome.netFail "connection refused" }

def envHttpStatus500 : Env :=
  { git := fun _ _ => Except.ok "", http := fun _ => HttpOutcome.response 500 (some (some "hi")) }

def envHttpBadBody : Env :=
  { git := fun _ _ => Except.ok "", http := fun _ => HttpOutcome.response 200 none }

/-- Witness for C8: each of the five cases of the contract, at concrete
environments. -/
theorem call_model_contract_witness :
    ((_call_model envHttpText "p") (initSt botW)).1 = Except.ok "hi" ∧
    ((_call_model envHttpNoField "p") (initSt botW)).1 = Except.ok "" ∧
    (∃ m, ((_call_model envHttpNetFail "p") (initSt botW)).1 =
      Except.error (BotError.inferenceError m)) ∧
    (∃ m, ((_call_model envHttpStatus500 "p") (initSt botW)).1 =
      Except.error (BotError.inferenceError m)) ∧
    (∃ m, ((_call_model envHttpBadBody "p") (initSt botW)).1 =
      Except.error (BotError.inferenceError m)) :=
  ⟨(call_model_contract envHttpText "p" (initSt botW)).1 200 "hi" rfl (by decide),
    (call_model_contract envHttpNoField "p" (initSt botW)).2.1 200 rfl (by decide),
    (call_model_contract envHttpNetFail "p" (initSt botW)).2.2.1 "connection refused" rfl,
    (call_model_contract envHttpStatus500 "p" (initSt botW)).2.2.2.1 500 (some (some "hi"))
      rfl (by decide) (by decide),
    (call_model_contract envHttpBadBody "p" (initSt botW)).2.2.2.2 200 rfl (by decide)⟩

/-! ## Lemmas on the Python text primitives, towards the prompt shape -/

theorem splitNL_nil : splitNL [] = [[]] := rfl

theorem splitNL_newline (b : List Char) : splitNL ('\n' :: b) = [] :: splitNL b := by
  simp [splitNL]

theorem splitNL_ne_nil (cs : List Char) : splitNL cs ≠ [] := by
  cases cs with
  | nil => simp [splitNL]
  | cons c rest =>
    rw [splitNL]
    split
    · simp
    · split <;> simp

theorem splitNL_append (a : List Char) (h : '\n' ∉ a) (b : List Char) :
    splitNL (a ++ b) = (a ++ (splitNL b).headI) :: (splitNL b).tail := by
  induction a with
  | nil =>
    rcases hb : splitNL b with _ | ⟨l, ls⟩
    · exact absurd hb (splitNL_ne_nil b)
    · simp [hb]
  | cons c cs ih =>
    have hc : ¬ c = '\n' := fun hcn => h (hcn ▸ List.mem_cons_self c cs)
    have hcs : '\n' ∉ cs := fun hmem => h (List.mem_cons_of_mem c hmem)
    rw [List.cons_append, splitNL, if_neg hc, ih hcs]
    simp

theorem splitNL_no_newline (a : List Char) (h : '\n' ∉ a) : splitNL a = [a] := by
  have := splitNL_append a h []
  simpa [splitNL_nil] using this

theorem isPrefixOf_append_self (n b : List Char) : n.isPrefixOf (n ++ b) = true := by
  induction n with
  | nil => simp [List.isPrefixOf]
  | cons c cs ih => simp [List.isPrefixOf, ih]

theorem hasInfixChars_nil (hay : List Char) : hasInfixChars [] hay = true := by
  cases hay <;> simp [hasInfixChars, List.isPrefixOf]

theorem hasInfixChars_append (a n b : List Char) : hasInfixChars n (a ++ (n ++ b)) = true := by
  induction a with
  | nil =>
    cases n with
    | nil => simpa using hasInfixChars_nil b
    | cons m ms =>
      rw [List.nil_append, List.cons_append, hasInfixChars]
      have := isPrefixOf_append_self (m :: ms) b
      rw [List.cons_append] at this
      simp [this]
  | cons x xs ih =>
    rw [List.cons_append, hasInfixChars, ih]
    simp

theorem commonPrefix_append (m z : List Char) : commonPrefix m (m ++ z) = m := by
  induction m with
  | nil => rfl
  | cons a as ih => simp [commonPrefix, ih]

theorem foldl_commonPrefix_const (m : List Char) (L : List (List Char))
    (h : ∀ x ∈ L, ∃ z, x = m ++ z) : L.foldl commonPrefix m = m := by
  induction L with
  | nil => rfl
  | cons x xs ih =>
    obtain ⟨z, hz⟩ := h x (List.mem_cons_self x xs)
    rw [List.foldl_cons, hz, commonPrefix_append]
    exact ih fun y hy => h y (List.mem_cons_of_mem x hy)

theorem isWsOnlyLine_append_all (a x : List Char) (ha : a ≠ [])
    (hall : a.all isPyBlank = true) : isWsOnlyLine (a ++ x) = x.all isPyBlank := by
  cases a with
  | nil => exact absurd rfl ha
  | cons c cs =>
    rw [isWsOnlyLine, List.cons_append]
    simp only [List.all_cons, Bool.and_eq_true] at hall
    simp [List.all_append, hall.1, hall.2]

theorem lineIndent_append_all (a x : List Char) (hall : a.all isPyBlank = true) :
    lineIndent (a ++ x) = a ++ lineIndent x := by
  rw [lineIndent, lineIndent]
  exact List.takeWhile_append_of_pos (by simpa [List.all_eq_true] using hall)

theorem drop_length_append (a x : List Char) : (a ++ x).drop a.length = x :=
  List.drop_left a x

/-- `str.strip` of a text that is a nonblank body wrapped in whitespace:
exactly the body remains. -/
theorem stripChars_sandwich (w₁ w₂ mid : List Char) (x y : Char)
    (hw₁ : ∀ ch ∈ w₁, isPySpace ch = true) (hw₂ : ∀ ch ∈ w₂, isPySpace ch = true)
    (hx : isPySpace x = false) (hy : isPySpace y = false) :
    stripChars (w₁ ++ x :: (mid ++ y :: w₂)) = x :: (mid ++ [y]) := by
  rw [stripChars]
  rw [List.dropWhile_append_of_pos hw₁, List.dropWhile_cons_of_neg (by simp [hx])]
  rw [show x :: (mid ++ y :: w₂) = (x :: mid) ++ (y :: w₂) from by simp]
  rw [List.reverse_append]
  rw [show (y :: w₂).reverse = w₂.reverse ++ [y] from by simp]
  rw [List.append_assoc]
  rw [List.dropWhile_append_of_pos (by simpa using hw₂)]
  rw [show [y] ++ (x :: mid).reverse = y :: (x :: mid).reverse from rfl]
  rw [List.dropWhile_cons_of_neg (by simp [hy])]
  simp

/-! ## The prompt's line structure

Character-list names for the fixed pieces of the prompt template: `sp12` is
the twelve-space margin of the triple-quoted literal, `dedL…` are the line
bodies after the margin, `tplL…` the mid-line pieces around the
interpolations. -/

def sp12 : List Char := "            ".data

def dedL1 : List Char :=
  "You are an expert software engineer assisting with pull request reviews.".data

def dedL2a : List Char := "Compare two branches: ".data

def tplL2b : List Char := " (base) and ".data

def tplL2c : List Char := " (feature).".data

def dedL3a : List Char := "A developer has changed the file `".data

def tplL3b : List Char := "`. You are given the full".data

def dedL4 : List Char :=
  "content of the file from the feature branch along with the diff patch".data

def dedL5 : List Char :=
  "between the base and feature branch. Consider the entire file but limit".data

def dedL6 : List Char :=
  "your comments strictly to lines that are part of the diff. Highlight".data

def dedL7 : List Char :=
  "potential bugs, wrong logic, bad coding practices, and opportunities for".data

def dedL8 : List Char :=
  "improvement. Be concise and reference line numbers from the patch when".data

def dedL9 : List Char := "possible.".data

def dedL11 : List Char := "<file_content>".data

def dedL13 : List Char := "</file_content>".data

def dedL15 : List Char := "<diff_patch>".data

def dedL17 : List Char := "</diff_patch>".data

def dedL19 : List Char := "Provide your review now.".data

theorem headI_cons {α : Type} [Inhabited α] (a : α) (l : List α) : (a :: l).headI = a := rfl

set_option maxHeartbeats 2000000

/-- Splitting the interpolated template into its lines, provided no
interpolated value contains a newline. -/
theorem splitNL_promptTemplate (p d c s t : String)
    (hp : '\n' ∉ p.data) (hd : '\n' ∉ d.data) (hc : '\n' ∉ c.data)
    (hs : '\n' ∉ s.data) (ht : '\n' ∉ t.data) :
    splitNL (promptTemplate p d c s t).data =
      [[],
       sp12 ++ dedL1,
       sp12 ++ (dedL2a ++ (t.data ++ (tplL2b ++ (s.data ++ tplL2c)))),
       sp12 ++ (dedL3a ++ (p.data ++ tplL3b)),
       sp12 ++ dedL4, sp12 ++ dedL5, sp12 ++ dedL6, sp12 ++ dedL7, sp12 ++ dedL8,
       sp12 ++ dedL9,
       [],
       sp12 ++ dedL11,
       sp12 ++ c.data,
       sp12 ++ dedL13,
       [],
       sp12 ++ dedL15,
       sp12 ++ d.data,
       sp12 ++ dedL17,
       [],
       sp12 ++ dedL19,
       sp12] := by
  have e1 : ("            You are an expert software engineer assisting with pull request reviews." : String).data = sp12 ++ dedL1 := by decide
  have e2 : ("            Compare two branches: " : String).data = sp12 ++ dedL2a := by decide
  have e2b : (" (base) and " : String).data = tplL2b := rfl
  have e2c : (" (feature)." : String).data = tplL2c := rfl
  have e3 : ("            A developer has changed the file `" : String).data = sp12 ++ dedL3a := by decide
  have e3b : ("`. You are given the full" : String).data = tplL3b := rfl
  have e4 : ("            content of the file from the feature branch along with the diff patch" : String).data = sp12 ++ dedL4 := by decide
  have e5 : ("            between the base and feature branch. Consider the entire file but limit" : String).data = sp12 ++ dedL5 := by decide
  have e6 : ("            your comments strictly to lines that are part of the diff. Highlight" : String).data = sp12 ++ dedL6 := by decide
  have e7 : ("            potential bugs, wrong logic, bad coding practices, and opportunities for" : String).data = sp12 ++ dedL7 := by decide
  have e8 : ("            improvement. Be concise and reference line numbers from the patch when" : String).data = sp12 ++ dedL8 := by decide
  have e9 : ("            possible." : String).data = sp12 ++ dedL9 := by decide
  have e11 : ("            <file_content>" : String).data = sp12 ++ dedL11 := by decide
  have e13 : ("            </file_content>" : String).data = sp12 ++ dedL13 := by decide
  have e15 : ("            <diff_patch>" : String).data = sp12 ++ dedL15 := by decide
  have e17 : ("            </diff_patch>" : String).data = sp12 ++ dedL17 := by decide
  have e19 : ("            Provide your review now." : String).data = sp12 ++ dedL19 := by decide
  have hnl : ("\n" : String).data = ['\n'] := rfl
  have hsp : ("            " : String).data = sp12 := rfl
  have hemp : ("" : String).data = ([] : List Char) := rfl
  have nsp : '\n' ∉ sp12 := by decide
  have m1 : '\n' ∉ dedL1 := by decide
  have m2a : '\n' ∉ dedL2a := by decide
  have m2b : '\n' ∉ tplL2b := by decide
  have m2c : '\n' ∉ tplL2c := by decide
  have m3a : '\n' ∉ dedL3a := by decide
  have m3b : '\n' ∉ tplL3b := by decide
  have m4 : '\n' ∉ dedL4 := by decide
  have m5 : '\n' ∉ dedL5 := by decide
  have m6 : '\n' ∉ dedL6 := by decide
  have m7 : '\n' ∉ dedL7 := by decide
  have m8 : '\n' ∉ dedL8 := by decide
  have m9 : '\n' ∉ dedL9 := by decide
  have m11 : '\n' ∉ dedL11 := by decide
  have m13 : '\n' ∉ dedL13 := by decide
  have m15 : '\n' ∉ dedL15 := by decide
  have m17 : '\n' ∉ dedL17 := by decide
  have m19 : '\n' ∉ dedL19 := by decide
  unfold promptTemplate
  repeat rw [String.data_append]
  rw [e1, e2, e2b, e2c, e3, e3b, e4, e5, e6, e7, e8, e9, e11, e13, e15, e17, e19, hnl,
    hsp, hemp]
  simp only [List.append_assoc, List.singleton_append, List.nil_append, List.cons_append]
  simp only [splitNL_newline, splitNL_append sp12 nsp, splitNL_append dedL1 m1,
    splitNL_append dedL2a m2a, splitNL_append tplL2b m2b, splitNL_append tplL2c m2c,
    splitNL_append dedL3a m3a, splitNL_append tplL3b m3b, splitNL_append dedL4 m4,
    splitNL_append dedL5 m5, splitNL_append dedL6 m6, splitNL_append dedL7 m7,
    splitNL_append dedL8 m8, splitNL_append dedL9 m9, splitNL_append dedL11 m11,
    splitNL_append dedL13 m13, splitNL_append dedL15 m15, splitNL_append dedL17 m17,
    splitNL_append dedL19 m19, splitNL_append p.data hp, splitNL_append d.data hd,
    splitNL_append c.data hc, splitNL_append s.data hs, splitNL_append t.data ht,
    splitNL_no_newline sp12 nsp, headI_cons, List.tail_cons, List.append_nil,
    List.append_assoc]

/-- The template's lines after `dedent`'s whitespace-only-line
normalisation. -/
def promptNormLines (p d c s t : String) : List (List Char) :=
  [[],
   sp12 ++ dedL1,
   sp12 ++ (dedL2a ++ (t.data ++ (tplL2b ++ (s.data ++ tplL2c)))),
   sp12 ++ (dedL3a ++ (p.data ++ tplL3b)),
   sp12 ++ dedL4, sp12 ++ dedL5, sp12 ++ dedL6, sp12 ++ dedL7, sp12 ++ dedL8,
   sp12 ++ dedL9,
   [],
   sp12 ++ dedL11,
   (if c.data.all isPyBlank then [] else sp12 ++ c.data),
   sp12 ++ dedL13,
   [],
   sp12 ++ dedL15,
   (if d.data.all isPyBlank then [] else sp12 ++ d.data),
   sp12 ++ dedL17,
   [],
   sp12 ++ dedL19,
   []]

/-- The template's lines after the margin removal. -/
def promptDedLines (p d c s t : String) : List (List Char) :=
  [[],
   dedL1,
   dedL2a ++ (t.data ++ (tplL2b ++ (s.data ++ tplL2c))),
   dedL3a ++ (p.data ++ tplL3b),
   dedL4, dedL5, dedL6, dedL7, dedL8,
   dedL9,
   [],
   dedL11,
   (if c.data.all isPyBlank then [] else c.data),
   dedL13,
   [],
   dedL15,
   (if d.data.all isPyBlank then [] else d.data),
   dedL17,
   [],
   dedL19,
   []]

/-- The dedented lines without the leading and trailing empty line: what
remains after the final `strip()`. -/
def promptCoreLines (p d c s t : String) : List (List Char) :=
  [dedL1,
   dedL2a ++ (t.data ++ (tplL2b ++ (s.data ++ tplL2c))),
   dedL3a ++ (p.data ++ tplL3b),
   dedL4, dedL5, dedL6, dedL7, dedL8,
   dedL9,
   [],
   dedL11,
   (if c.data.all isPyBlank then [] else c.data),
   dedL13,
   [],
   dedL15,
   (if d.data.all isPyBlank then [] else d.data),
   dedL17,
   [],
   dedL19]

/-- Normalising whitespace-only lines in the split template: only the
closing twelve-space line is whitespace-only (and either interpolated slot,
when it is entirely blank). -/
theorem dedent_norm_promptTemplate (p d c s t : String)
    (hp : '\n' ∉ p.data) (hd : '\n' ∉ d.data) (hc : '\n' ∉ c.data)
    (hs : '\n' ∉ s.data) (ht : '\n' ∉ t.data) :
    ((splitNL (promptTemplate p d c s t).data).map
      fun l => if isWsOnlyLine l then [] else l) = promptNormLines p d c s t := by
  rw [splitNL_promptTemplate p d c s t hp hd hc hs ht]
  have w0 : isWsOnlyLine [] = false := by decide
  have w1 : isWsOnlyLine (sp12 ++ dedL1) = false := by decide
  have w2 : isWsOnlyLine (sp12 ++ (dedL2a ++ (t.data ++ (tplL2b ++ (s.data ++ tplL2c))))) = false := by
    rw [isWsOnlyLine_append_all sp12 _ (by decide) (by decide), List.all_append]
    simp [show dedL2a.all isPyBlank = false from by decide]
  have w3 : isWsOnlyLine (sp12 ++ (dedL3a ++ (p.data ++ tplL3b))) = false := by
    rw [isWsOnlyLine_append_all sp12 _ (by decide) (by decide), List.all_append]
    simp [show dedL3a.all isPyBlank = false from by decide]
  have w4 : isWsOnlyLine (sp12 ++ dedL4) = false := by decide
  have w5 : isWsOnlyLine (sp12 ++ dedL5) = false := by decide
  have w6 : isWsOnlyLine (sp12 ++ dedL6) = false := by decide
  have w7 : isWsOnlyLine (sp12 ++ dedL7) = false := by decide
  have w8 : isWsOnlyLine (sp12 ++ dedL8) = false := by decide
  have w9 : isWsOnlyLine (sp12 ++ dedL9) = false := by decide
  have w11 : isWsOnlyLine (sp12 ++ dedL11) = false := by decide
  have w13 : isWsOnlyLine (sp12 ++ dedL13) = false := by decide
  have w15 : isWsOnlyLine (sp12 ++ dedL15) = false := by decide
  have w17 : isWsOnlyLine (sp12 ++ dedL17) = false := by decide
  have w19 : isWsOnlyLine (sp12 ++ dedL19) = false := by decide
  have wc : isWsOnlyLine (sp12 ++ c.data) = c.data.all isPyBlank :=
    isWsOnlyLine_append_all sp12 c.data (by decide) (by decide)
  have wd : isWsOnlyLine (sp12 ++ d.data) = d.data.all isPyBlank :=
    isWsOnlyLine_append_all sp12 d.data (by decide) (by decide)
  have wlast : isWsOnlyLine sp12 = true := by decide
  simp only [List.map_cons, List.map_nil, w0, w1, w2, w3, w4, w5, w6, w7, w8, w9, w11,
    w13, w15, w17, w19, wc, wd, wlast, Bool.false_eq_true, if_false, if_true,
    promptNormLines]

/-- The margin `dedent` computes for the interpolated template is exactly
the twelve spaces of the triple-quoted literal, whatever the interpolated
values: every non-empty line starts with them. -/
theorem dedent_margin_promptTemplate (p d c s t : String) :
    dedentMargin (((promptNormLines p d c s t).filter fun l => !l.isEmpty).map lineIndent)
      = sp12 := by
  rw [promptNormLines]
  rw [List.filter_cons_of_neg (by decide), List.filter_cons_of_pos (by decide)]
  rw [List.map_cons]
  rw [show lineIndent (sp12 ++ dedL1) = sp12 from by decide]
  simp only [dedentMargin]
  apply foldl_commonPrefix_const
  intro x hx
  obtain ⟨l, hl, rfl⟩ := List.mem_map.mp hx
  obtain ⟨hlmem, hlne⟩ := List.mem_filter.mp hl
  simp only [List.mem_cons, List.not_mem_nil, or_false] at hlmem
  rcases hlmem with rfl | rfl | rfl | rfl | rfl | rfl | rfl | rfl | rfl | rfl | rfl | rfl |
    rfl | rfl | rfl | rfl | rfl | rfl | rfl
  · exact ⟨lineIndent (dedL2a ++ (t.data ++ (tplL2b ++ (s.data ++ tplL2c)))),
      lineIndent_append_all sp12 _ (by decide)⟩
  · exact ⟨lineIndent (dedL3a ++ (p.data ++ tplL3b)),
      lineIndent_append_all sp12 _ (by decide)⟩
  · exact ⟨[], by decide⟩
  · exact ⟨[], by decide⟩
  · exact ⟨[], by decide⟩
  · exact ⟨[], by decide⟩
  · exact ⟨[], by decide⟩
  · exact ⟨[], by decide⟩
  · simp at hlne
  · exact ⟨[], by decide⟩
  · by_cases hq : c.data.all isPyBlank = true
    · rw [if_pos hq] at hlne
      simp at hlne
    · rw [if_neg hq]
      exact ⟨lineIndent c.data, lineIndent_append_all sp12 c.data (by decide)⟩
  · exact ⟨[], by decide⟩
  · simp at hlne
  · exact ⟨[], by decide⟩
  · by_cases hq : d.data.all isPyBlank = true
    · rw [if_pos hq] at hlne
      simp at hlne
    · rw [if_neg hq]
      exact ⟨lineIndent d.data, lineIndent_append_all sp12 d.data (by decide)⟩
  · exact ⟨[], by decide⟩
  · simp at hlne
  · exact ⟨[], by decide⟩
  · simp at hlne

/-- Removing the twelve-space margin from every (normalised) template
line. -/
theorem dedent_strip_promptTemplate (p d c s t : String) :
    ((promptNormLines p d c s t).map
      fun l => if sp12.isPrefixOf l then l.drop sp12.length else l)
      = promptDedLines p d c s t := by
  have g0 : (if sp12.isPrefixOf ([] : List Char) then ([] : List Char).drop sp12.length
      else ([] : List Char)) = [] := by decide
  have gen : ∀ X : List Char,
      (if sp12.isPrefixOf (sp12 ++ X) then (sp12 ++ X).drop sp12.length else sp12 ++ X) = X := by
    intro X
    rw [if_pos (isPrefixOf_append_self sp12 X)]
    exact drop_length_append sp12 X
  simp only [promptNormLines, promptDedLines, List.map_cons, List.map_nil,
    apply_ite (fun l : List Char => if sp12.isPrefixOf l then l.drop sp12.length else l),
    g0, gen]

/-- `textwrap.dedent` of the interpolated template, as its line list. -/
theorem dedentChars_promptTemplate (p d c s t : String)
    (hp : '\n' ∉ p.data) (hd : '\n' ∉ d.data) (hc : '\n' ∉ c.data)
    (hs : '\n' ∉ s.data) (ht : '\n' ∉ t.data) :
    dedentChars (promptTemplate p d c s t).data = joinNL (promptDedLines p d c s t) := by
  unfold dedentChars
  simp only [dedent_norm_promptTemplate p d c s t hp hd hc hs ht,
    dedent_margin_promptTemplate p d c s t,
    dedent_strip_promptTemplate p d c s t]

def dedL1t : List Char :=
  "ou are an expert software engineer assisting with pull request reviews.".data

def dedL19h : List Char := "Provide your review now".data

/-- The characters of the final prompt strictly between the leading `Y` of
"You are" and the closing period of "Provide your review now." -/
def promptMid (p d c s t : String) : List Char :=
  dedL1t ++
    ('\n' :: ((dedL2a ++ (t.data ++ (tplL2b ++ (s.data ++ tplL2c)))) ++ ('\n' :: ((dedL3a ++
    (p.data ++ tplL3b)) ++ ('\n' :: (dedL4 ++ ('\n' :: (dedL5 ++ ('\n' :: (dedL6 ++ ('\n' ::
    (dedL7 ++ ('\n' :: (dedL8 ++ ('\n' :: (dedL9 ++ ('\n' :: ('\n' :: (dedL11 ++ ('\n' :: ((if
    c.data.all isPyBlank then [] else c.data) ++ ('\n' :: (dedL13 ++ ('\n' :: ('\n' :: (dedL15
    ++ ('\n' :: ((if d.data.all isPyBlank then [] else d.data) ++ ('\n' :: (dedL17 ++ ('\n' ::
    ('\n' :: (dedL19h)))))))))))))))))))))))))))))))))

/-- The final `strip()`: the prompt is the dedented text without its
leading and trailing newline. -/
theorem strip_prompt (p d c s t : String) :
    stripChars (joinNL (promptDedLines p d c s t)) =
      'Y' :: (promptMid p d c s t ++ ['.']) := by
  have hY : dedL1 = 'Y' :: dedL1t := by decide
  have hdot : dedL19 = dedL19h ++ ['.'] := by decide
  have hsh : joinNL (promptDedLines p d c s t) =
      ['\n'] ++ ('Y' :: ((promptMid p d c s t) ++ ('.' :: ['\n']))) := by
    rw [promptDedLines]
    simp only [joinNL, hY, hdot, promptMid, List.append_assoc, List.cons_append,
      List.singleton_append, List.nil_append, List.append_nil]
  rw [hsh]
  rw [stripChars_sandwich ['\n'] ['\n'] (promptMid p d c s t) 'Y' '.'
    (by decide) (by decide) (by decide) (by decide)]

/-- The characters of the prompt `_analyze` builds, for newline-free
inputs: the dedented, stripped template around the interpolations. -/
theorem data_mk (l : List Char) : (String.mk l).data = l := rfl

theorem buildPrompt_data (p d c s t : String)
    (hp : '\n' ∉ p.data) (hd : '\n' ∉ d.data) (hc : '\n' ∉ c.data)
    (hs : '\n' ∉ s.data) (ht : '\n' ∉ t.data) :
    (buildPrompt p d c s t).data = 'Y' :: (promptMid p d c s t ++ ['.']) := by
  have h0 : (buildPrompt p d c s t).data
      = stripChars (dedentChars (promptTemplate p d c s t).data) := by
    unfold buildPrompt pyStrip pyDedent
    rw [data_mk, data_mk]
  rw [h0, dedentChars_promptTemplate p d c s t hp hd hc hs ht, strip_prompt]

theorem hasInfix_cons (n : List Char) (x : Char) (rest : List Char)
    (h : hasInfixChars n rest = true) : hasInfixChars n (x :: rest) = true := by
  rw [hasInfixChars, h]
  simp

theorem hasInfix_append_right (n a b : List Char) (h : hasInfixChars n b = true) :
    hasInfixChars n (a ++ b) = true := by
  induction a with
  | nil => simpa using h
  | cons x xs ih => rw [List.cons_append]; exact hasInfix_cons n x (xs ++ b) ih

theorem hasInfix_self_append (n b : List Char) : hasInfixChars n (n ++ b) = true := by
  cases n with
  | nil => simpa using hasInfixChars_nil b
  | cons m ms =>
    rw [List.cons_append, hasInfixChars]
    have h := isPrefixOf_append_self (m :: ms) b
    rw [List.cons_append] at h
    simp [h]

/-- Counterexample to C7 as stated: a syntactically valid file content both
of whose lines are indented by twelve spaces.  `textwrap.dedent` removes
those twelve spaces from the interior line of the interpolated text, so the
constructed prompt does not contain the file content as a substring. -/
theorem prompt_containment_counterexample :
    strContains (buildPrompt "f.py" "d" "            a\n            b" "feat" "main")
      "            a\n            b" = false := by decide

/-- C7 (amended): for every file path, diff text, file content, source ref
and target ref that contain no newline character, where the content and the
diff are each either empty or contain at least one non-blank character, the
constructed review prompt contains, as substrings, the full file content,
the full diff text, and both ref names. -/
theorem analyze_prompt_contains (p d c s t : String)
    (hp : '\n' ∉ p.data) (hd : '\n' ∉ d.data) (hc : '\n' ∉ c.data)
    (hs : '\n' ∉ s.data) (ht : '\n' ∉ t.data)
    (hcb : c.data.all isPyBlank = true → c = "")
    (hdb : d.data.all isPyBlank = true → d = "") :
    strContains (buildPrompt p d c s t) c = true ∧
    strContains (buildPrompt p d c s t) d = true ∧
    strContains (buildPrompt p d c s t) s = true ∧
    strContains (buildPrompt p d c s t) t = true := by
  have hbp := buildPrompt_data p d c s t hp hd hc hs ht
  refine ⟨?_, ?_, ?_, ?_⟩
  · show hasInfixChars c.data (buildPrompt p d c s t).data = true
    rw [hbp]
    by_cases hq : c.data.all isPyBlank = true
    · rw [hcb hq]
      apply hasInfix_cons
      apply hasInfix_append_right
      exact hasInfix_self_append _ _
    · apply hasInfix_cons
      simp only [promptMid, List.append_assoc, List.cons_append]
      rw [show (if c.data.all isPyBlank then ([] : List Char) else c.data) = c.data
        from if_neg hq]
      apply hasInfix_append_right
      apply hasInfix_cons
      apply hasInfix_append_right
      apply hasInfix_append_right
      apply hasInfix_append_right
      apply hasInfix_append_right
      apply hasInfix_append_right
      apply hasInfix_cons
      apply hasInfix_append_right
      apply hasInfix_append_right
      apply hasInfix_append_right
      apply hasInfix_cons
      apply hasInfix_append_right
      apply hasInfix_cons
      apply hasInfix_append_right
      apply hasInfix_cons
      apply hasInfix_append_right
      apply hasInfix_cons
      apply hasInfix_append_right
      apply hasInfix_cons
      apply hasInfix_append_right
      apply hasInfix_cons
      apply hasInfix_append_right
      apply hasInfix_cons
      apply hasInfix_cons
      apply hasInfix_append_right
      apply hasInfix_cons
      exact hasInfix_self_append _ _
  · show hasInfixChars d.data (buildPrompt p d c s t).data = true
    rw [hbp]
    by_cases hq : d.data.all isPyBlank = true
    · rw [hdb hq]
      apply hasInfix_cons
      apply hasInfix_append_right
      exact hasInfix_self_append _ _
    · apply hasInfix_cons
      simp only [promptMid, List.append_assoc, List.cons_append]
      rw [show (if d.data.all isPyBlank then ([] : List Char) else d.data) = d.data
        from if_neg hq]
      apply hasInfix_append_right
      apply hasInfix_cons
      apply hasInfix_append_right
      apply hasInfix_append_right
      apply hasInfix_append_right
      apply hasInfix_append_right
      apply hasInfix_append_right
      apply hasInfix_cons
      apply hasInfix_append_right
      apply hasInfix_append_right
      apply hasInfix_append_right
      apply hasInfix_cons
      apply hasInfix_append_right
      apply hasInfix_cons
      apply hasInfix_append_right
      apply hasInfix_cons
      apply hasInfix_append_right
      apply hasInfix_cons
      apply hasInfix_append_right
      apply hasInfix_cons
      apply hasInfix_append_right
      apply hasInfix_cons
      apply hasInfix_append_right
      apply hasInfix_cons
      apply hasInfix_cons
      apply hasInfix_append_right
      apply hasInfix_cons
      apply hasInfix_append_right
      apply hasInfix_cons
      apply hasInfix_append_right
      apply hasInfix_cons
      apply hasInfix_cons
      apply hasInfix_append_right
      apply hasInfix_cons
      exact hasInfix_self_append _ _
  · show hasInfixChars s.data (buildPrompt p d c s t).data = true
    rw [hbp]
    apply hasInfix_cons
    simp only [promptMid, List.append_assoc, List.cons_append]
    apply hasInfix_append_right
    apply hasInfix_cons
    apply hasInfix_append_right
    apply hasInfix_append_right
    apply hasInfix_append_right
    exact hasInfix_self_append _ _
  · show hasInfixChars t.data (buildPrompt p d c s t).data = true
    rw [hbp]
    apply hasInfix_cons
    simp only [promptMid, List.append_assoc, List.cons_append]
    apply hasInfix_append_right
    apply hasInfix_cons
    apply hasInfix_append_right
    exact hasInfix_self_append _ _

/-- Witness for the amended C7 on a concrete file, diff, content and
refs. -/
theorem analyze_prompt_contains_witness :
    strContains (buildPrompt "hello.py" "+x" "x = 1" "feature" "main") "x = 1" = true ∧
    strContains (buildPrompt "hello.py" "+x" "x = 1" "feature" "main") "+x" = true ∧
    strContains (buildPrompt "hello.py" "+x" "x = 1" "feature" "main") "feature" = true ∧
    strContains (buildPrompt "hello.py" "+x" "x = 1" "feature" "main") "main" = true :=
  analyze_prompt_contains "hello.py" "+x" "x = 1" "feature" "main"
    (by decide) (by decide) (by decide) (by decide) (by decide)
    (fun h => absurd h (by decide)) (fun h => absurd h (by decide))

end PRReview
